import Mathlib

/-!
Verification of the nmap MCP server core (`src/index.ts`): the zod request
schema `NmapScanSchema`, the command compiler and executor `runNmapScan`,
and the `CallToolRequestSchema` handler, shallowly embedded in Lean.
-/

namespace NmapServer

/-- A JSON-like value occupying one field of a request payload.  `null` is a
present-but-null field, which zod treats as a type error for every field of
`NmapScanSchema` (only an absent field, `undefined`, triggers `.optional()`
or `.default(...)`).  Numbers are modelled as rationals. -/
inductive JsonValue where
  | str (s : String)
  | num (q : ℚ)
  | boolean (b : Bool)
  | null
deriving DecidableEq

/-- An untyped argument payload for the `run_nmap_scan` tool: each schema
field either absent (`none`, i.e. `undefined`) or bound to a JSON value. -/
structure RawPayload where
  target : Option JsonValue := none
  ports : Option JsonValue := none
  scanType : Option JsonValue := none
  timing : Option JsonValue := none
  additionalFlags : Option JsonValue := none
deriving DecidableEq

/-- The scan type enumeration of `z.enum(['quick', 'full', 'version'])`. -/
inductive ScanType where
  | quick
  | full
  | version
deriving DecidableEq

/-- The normalized scan configuration, `z.infer<typeof NmapScanSchema>`. -/
structure ScanConfig where
  target : String
  ports : Option String := none
  scanType : ScanType := ScanType.quick
  timing : ℚ := 3
  additionalFlags : Option String := none
deriving DecidableEq

/-- One zod validation issue: the failing field's name and a message. -/
structure FieldIssue where
  field : String
  message : String
deriving DecidableEq

/-- `target: z.string()` — required, must be a string (emptiness is not
checked). -/
def checkTarget : Option JsonValue → Except FieldIssue String
  | some (JsonValue.str s) => Except.ok s
  | some _ => Except.error ⟨"target", "Expected string"⟩
  | none => Except.error ⟨"target", "Required"⟩

/-- `ports: z.string().optional()`. -/
def checkPorts : Option JsonValue → Except FieldIssue (Option String)
  | none => Except.ok none
  | some (JsonValue.str s) => Except.ok (some s)
  | some _ => Except.error ⟨"ports", "Expected string"⟩

/-- `scanType: z.enum(['quick', 'full', 'version']).default('quick')`. -/
def checkScanType : Option JsonValue → Except FieldIssue ScanType
  | none => Except.ok ScanType.quick
  | some (JsonValue.str "quick") => Except.ok ScanType.quick
  | some (JsonValue.str "full") => Except.ok ScanType.full
  | some (JsonValue.str "version") => Except.ok ScanType.version
  | some _ => Except.error ⟨"scanType", "Invalid enum value"⟩

/-- `timing: z.number().min(0).max(5).default(3)` — any number in the closed
range is accepted; there is no integrality constraint in the schema. -/
def checkTiming : Option JsonValue → Except FieldIssue ℚ
  | none => Except.ok 3
  | some (JsonValue.num q) =>
      if q < 0 then Except.error ⟨"timing", "Number must be greater than or equal to 0"⟩
      else if 5 < q then Except.error ⟨"timing", "Number must be less than or equal to 5"⟩
      else Except.ok q
  | some _ => Except.error ⟨"timing", "Expected number"⟩

/-- `additionalFlags: z.string().optional()`. -/
def checkFlags : Option JsonValue → Except FieldIssue (Option String)
  | none => Except.ok none
  | some (JsonValue.str s) => Except.ok (some s)
  | some _ => Except.error ⟨"additionalFlags", "Expected string"⟩

/-- The issue list contributed by one field check. -/
def errList {α : Type} : Except FieldIssue α → List FieldIssue
  | Except.ok _ => []
  | Except.error e => [e]

/-- Whether a field check failed. -/
def isErr {α : Type} : Except FieldIssue α → Bool
  | Except.ok _ => false
  | Except.error _ => true

/-- All issues of a payload, in schema field order — zod's object parser
checks every field and collects every issue, not just the first. -/
def fieldIssues (raw : RawPayload) : List FieldIssue :=
  errList (checkTarget raw.target) ++ errList (checkPorts raw.ports) ++
    errList (checkScanType raw.scanType) ++ errList (checkTiming raw.timing) ++
    errList (checkFlags raw.additionalFlags)

/-- `NmapScanSchema.safeParse`: succeeds with a normalized `ScanConfig`
exactly when every field check succeeds, and otherwise reports the full
issue list. -/
def safeParse (raw : RawPayload) : Except (List FieldIssue) ScanConfig :=
  match checkTarget raw.target, checkPorts raw.ports, checkScanType raw.scanType,
      checkTiming raw.timing, checkFlags raw.additionalFlags with
  | Except.ok t, Except.ok p, Except.ok st, Except.ok ti, Except.ok fl =>
      Except.ok { target := t, ports := p, scanType := st, timing := ti, additionalFlags := fl }
  | _, _, _, _, _ => Except.error (fieldIssues raw)

/-- Smallest decimal exponent `k` with `d ∣ 10 ^ k`, searched up to 400
digits; `none` when the denominator has no terminating decimal expansion. -/
def decExp (d : Nat) : Option Nat :=
  (List.range 400).find? fun k => 10 ^ k % d = 0

/-- Left-pad a digit string with zeros to width `k`. -/
def padZeros (s : String) (k : Nat) : String :=
  String.mk (List.replicate (k - s.length) '0') ++ s

/-- Strip trailing zero digits. -/
def stripZeros (s : String) : String :=
  String.mk ((s.data.reverse.dropWhile fun c => c = '0').reverse)

/-- Rendering of a number into a JavaScript template string, as in the
backtick interpolation building the command: integers print with no decimal
point, terminating decimals print their shortest decimal expansion. -/
def jsNumToString (q : ℚ) : String :=
  let sign := if q.num < 0 then "-" else ""
  match decExp q.den with
  | some k =>
      let scaled := q.num.natAbs * (10 ^ k / q.den)
      let ip := scaled / 10 ^ k
      let fp := scaled % 10 ^ k
      if fp = 0 then sign ++ toString ip
      else sign ++ toString ip ++ "." ++ stripZeros (padZeros (toString fp) k)
  | none => sign ++ toString q.num.natAbs ++ "/" ++ toString q.den

/-- JavaScript truthiness of an optional-string variable: `undefined` and
the empty string are falsy, every other string is truthy.  This is the test
performed by `if (ports)` and `if (additionalFlags)`. -/
def strTruthy : Option String → Bool
  | none => false
  | some s => !s.isEmpty

/-- The scan-strategy flag appended by the `switch (scanType)` statement of
`runNmapScan`: fast scan, all ports, or version detection. -/
def scanFlagOf : ScanType → String
  | ScanType.quick => " -F"
  | ScanType.full => " -p-"
  | ScanType.version => " -sV"

/-- The command-construction part of `runNmapScan`: the statement-by-
statement `command` accumulation of the source, starting from
`nmap -T<timing>`, then the scan-type switch, the conditional port flag,
the conditional additional flags, and the target. -/
def buildCommand (cfg : ScanConfig) : String :=
  let command := "nmap -T" ++ jsNumToString cfg.timing
  let command := command ++ scanFlagOf cfg.scanType
  let command := if strTruthy cfg.ports then command ++ " -p" ++ cfg.ports.getD "" else command
  let command :=
    if strTruthy cfg.additionalFlags then command ++ " " ++ cfg.additionalFlags.getD ""
    else command
  command ++ " " ++ cfg.target

/-- Outcome of the awaited `execAsync(command)` promise as seen by
`runNmapScan`: resolution carries the captured stdout and stderr texts,
rejection carries the error's message. -/
inductive ExecOutcome where
  | ok (stdout stderr : String)
  | err (message : String)
deriving DecidableEq

/-- What one `runNmapScan` call did: its result (stdout on success, the
thrown message on failure), the commands it submitted to the child-process
facility, and the lines sent to the diagnostic channel. -/
structure ScanRun where
  result : Except String String
  launched : List String
  diagnostics : List String

/-- `runNmapScan`: build the command, run it, log stderr if non-empty,
return stdout; on failure rethrow with the `Nmap scan failed: ` prefix. -/
def runNmapScan (exec : String → ExecOutcome) (cfg : ScanConfig) : ScanRun :=
  let command := buildCommand cfg
  match exec command with
  | ExecOutcome.ok stdout stderr =>
      { result := Except.ok stdout
        launched := [command]
        diagnostics := if stderr = "" then [] else ["Nmap stderr: " ++ stderr] }
  | ExecOutcome.err msg =>
      { result := Except.error ("Nmap scan failed: " ++ msg)
        launched := [command]
        diagnostics := [] }

/-- The protocol result envelope: one text content block plus the
`isError` flag. -/
structure ToolResult where
  text : String
  isError : Bool
deriving DecidableEq

/-- What one tool-call request produced: the result envelope, the commands
launched while serving it, and the diagnostic lines. -/
structure HandlerOutcome where
  result : ToolResult
  launched : List String
  diagnostics : List String
deriving DecidableEq

/-- Stringification of a zod error as interpolated into the thrown message. -/
def renderIssues (issues : List FieldIssue) : String :=
  String.intercalate "; " (issues.map fun i => i.field ++ ": " ++ i.message)

/-- The `CallToolRequestSchema` handler: dispatch on the tool name, validate
the arguments, run the scan, and map every thrown error to an error
envelope with an `Error: ` prefix. -/
def handleCallTool (exec : String → ExecOutcome) (name : String) (args : RawPayload) :
    HandlerOutcome :=
  if name = "run_nmap_scan" then
    match safeParse args with
    | Except.error issues =>
        { result := { text := "Error: Invalid arguments for run_nmap_scan: " ++
              renderIssues issues, isError := true }
          launched := []
          diagnostics := [] }
    | Except.ok cfg =>
        let run := runNmapScan exec cfg
        match run.result with
        | Except.ok stdout =>
            { result := { text := stdout, isError := false }
              launched := run.launched
              diagnostics := run.diagnostics }
        | Except.error msg =>
            { result := { text := "Error: " ++ msg, isError := true }
              launched := run.launched
              diagnostics := run.diagnostics }
  else
    { result := { text := "Error: Unknown tool: " ++ name, isError := true }
      launched := []
      diagnostics := [] }

/-- Modelled from the spec: the promisified `child_process.exec` facility is
not part of this repository.  Per the spec's execution contract, a spawn
failure rejects with the underlying failure message; a process that exits
non-zero is reported as a failed invocation, rejecting with a message that
names the failed command and embeds the captured stderr; a zero exit
resolves with the captured stdout and stderr. -/
inductive ProcessOutcome where
  | exited (code : Int) (stdout stderr : String)
  | spawnFailure (message : String)
deriving DecidableEq

/-- Modelled from the spec: mapping of the underlying process outcome to the
promise outcome seen by `runNmapScan` (see `ProcessOutcome`). -/
def execAsyncModel (proc : String → ProcessOutcome) (cmd : String) : ExecOutcome :=
  match proc cmd with
  | ProcessOutcome.spawnFailure m => ExecOutcome.err m
  | ProcessOutcome.exited code out err =>
      if code = 0 then ExecOutcome.ok out err
      else ExecOutcome.err ("Command failed: " ++ cmd ++ "\n" ++ err)

/-! ## Helper lemmas about the command compiler -/

/-- The optional port segment of the compiled command. -/
def portSegOf : Option String → String
  | none => ""
  | some p => if p = "" then "" else " -p" ++ p

/-- The optional additional-flags segment of the compiled command. -/
def extraSegOf : Option String → String
  | none => ""
  | some f => if f = "" then "" else " " ++ f

lemma port_step (command : String) (o : Option String) :
    (if strTruthy o then command ++ " -p" ++ o.getD "" else command) =
      command ++ portSegOf o := by
  cases o with
  | none => simp [strTruthy, portSegOf, String.append_empty]
  | some p =>
      by_cases hp : p = "" <;>
        simp [strTruthy, portSegOf, hp, String.isEmpty_iff, String.append_empty,
          String.append_assoc]

lemma extra_step (command : String) (o : Option String) :
    (if strTruthy o then command ++ " " ++ o.getD "" else command) =
      command ++ extraSegOf o := by
  cases o with
  | none => simp [strTruthy, extraSegOf, String.append_empty]
  | some f =>
      by_cases hf : f = "" <;>
        simp [strTruthy, extraSegOf, hf, String.isEmpty_iff, String.append_empty,
          String.append_assoc]

/-- The compiled command as one flat concatenation. -/
lemma buildCommand_flat (cfg : ScanConfig) :
    buildCommand cfg =
      "nmap -T" ++ jsNumToString cfg.timing ++ scanFlagOf cfg.scanType ++
        portSegOf cfg.ports ++ extraSegOf cfg.additionalFlags ++ " " ++ cfg.target := by
  unfold buildCommand
  simp only [port_step, extra_step]

/-- Integers interpolate into a JavaScript template string with no decimal
point. -/
lemma jsNumToString_natCast (n : ℕ) : jsNumToString (n : ℚ) = toString n := by
  have hd : decExp 1 = some 0 := by decide
  unfold jsNumToString
  rw [Rat.num_natCast, Rat.den_natCast, hd]
  have h0 : ¬ ((n : ℤ) < 0) := by exact not_lt.mpr (Int.natCast_nonneg n)
  simp [Int.natAbs_ofNat, Nat.mod_one, Nat.div_one, h0, String.empty_append]

/-! ## Claims about command compilation -/

/-- Claim C1: for every scan configuration, the compiled command is the
fixed-order concatenation of the program name with the timing flag, the
scan-strategy flag selected by `scanType`, the port flag when `ports` is
present (that is, passes the source's truthiness test `if (ports)`: set and
non-empty — see the claim on empty optional fields), the additional flags
verbatim after the port flag and before the target, and the target last.
`buildCommand` is a pure Lean function, so identical configurations yield
byte-identical command strings. -/
theorem command_fixed_concatenation (cfg : ScanConfig) :
    buildCommand cfg =
      "nmap -T" ++ jsNumToString cfg.timing ++ scanFlagOf cfg.scanType ++
        (match cfg.ports with
          | none => ""
          | some p => if p = "" then "" else " -p" ++ p) ++
        (match cfg.additionalFlags with
          | none => ""
          | some f => if f = "" then "" else " " ++ f) ++
        " " ++ cfg.target := by
  rw [buildCommand_flat]
  rfl

/-- Claim C2: every compiled command carries the scan-strategy flag selected
by `scanType` in the fixed position right after the timing flag, the mapping
is the declared one (`quick` to `-F`, `full` to `-p-`, `version` to `-sV`),
and it is injective; the switch appends exactly this one strategy flag — the
remaining segments are the verbatim pass-through fields and the target. -/
theorem scan_strategy_flag_mapping (cfg : ScanConfig) :
    scanFlagOf ScanType.quick = " -F" ∧
    scanFlagOf ScanType.full = " -p-" ∧
    scanFlagOf ScanType.version = " -sV" ∧
    Function.Injective scanFlagOf ∧
    ∃ tail,
      buildCommand cfg =
        ("nmap -T" ++ jsNumToString cfg.timing) ++ (scanFlagOf cfg.scanType ++ tail) := by
  refine ⟨rfl, rfl, rfl, ?_, ?_⟩
  · intro a b h
    cases a <;> cases b <;> simp_all [scanFlagOf]
  · refine ⟨portSegOf cfg.ports ++ extraSegOf cfg.additionalFlags ++ " " ++ cfg.target, ?_⟩
    rw [buildCommand_flat]
    simp [String.append_assoc]

/-- Claim C9: an optional field bound to the empty string compiles exactly
as an absent field, because the source tests presence with JavaScript
truthiness (`if (ports)`, `if (additionalFlags)`), and the empty string is
falsy. -/
theorem empty_optional_field_omitted (cfg : ScanConfig) :
    buildCommand { cfg with ports := some "" } = buildCommand { cfg with ports := none } ∧
    buildCommand { cfg with additionalFlags := some "" } =
      buildCommand { cfg with additionalFlags := none } := by
  constructor <;> · rw [buildCommand_flat, buildCommand_flat]; rfl

/-! ## Helper lemmas about validation -/

lemma safeParse_ok_of (raw : RawPayload) (t : String) (p : Option String) (st : ScanType)
    (ti : ℚ) (fl : Option String)
    (hT : checkTarget raw.target = Except.ok t) (hP : checkPorts raw.ports = Except.ok p)
    (hS : checkScanType raw.scanType = Except.ok st) (hTi : checkTiming raw.timing = Except.ok ti)
    (hF : checkFlags raw.additionalFlags = Except.ok fl) :
    safeParse raw = Except.ok ⟨t, p, st, ti, fl⟩ := by
  unfold safeParse
  rw [hT, hP, hS, hTi, hF]

lemma safeParse_error_of (raw : RawPayload)
    (h : isErr (checkTarget raw.target) = true ∨ isErr (checkPorts raw.ports) = true ∨
      isErr (checkScanType raw.scanType) = true ∨ isErr (checkTiming raw.timing) = true ∨
      isErr (checkFlags raw.additionalFlags) = true) :
    safeParse raw = Except.error (fieldIssues raw) := by
  unfold safeParse
  cases hT : checkTarget raw.target <;> cases hP : checkPorts raw.ports <;>
    cases hS : checkScanType raw.scanType <;> cases hTi : checkTiming raw.timing <;>
      cases hF : checkFlags raw.additionalFlags <;> simp_all [isErr]

lemma safeParse_error_eq (raw : RawPayload) (issues : List FieldIssue)
    (h : safeParse raw = Except.error issues) : issues = fieldIssues raw := by
  unfold safeParse at h
  cases hT : checkTarget raw.target <;> cases hP : checkPorts raw.ports <;>
    cases hS : checkScanType raw.scanType <;> cases hTi : checkTiming raw.timing <;>
      cases hF : checkFlags raw.additionalFlags <;> simp_all

lemma checkTarget_err_iff (o : Option JsonValue) :
    isErr (checkTarget o) = true ↔ ∀ s, o ≠ some (JsonValue.str s) := by
  cases o with
  | none => simp [checkTarget, isErr]
  | some v =>
      cases v with
      | str s =>
          apply iff_of_false
          · simp [checkTarget, isErr]
          · intro h
            exact h s rfl
      | num q => simp [checkTarget, isErr]
      | boolean b => simp [checkTarget, isErr]
      | null => simp [checkTarget, isErr]

lemma checkPorts_err_iff (o : Option JsonValue) :
    isErr (checkPorts o) = true ↔ (o ≠ none ∧ ∀ s, o ≠ some (JsonValue.str s)) := by
  cases o with
  | none => simp [checkPorts, isErr]
  | some v =>
      cases v with
      | str s =>
          apply iff_of_false
          · simp [checkPorts, isErr]
          · intro h
            exact h.2 s rfl
      | num q => simp [checkPorts, isErr]
      | boolean b => simp [checkPorts, isErr]
      | null => simp [checkPorts, isErr]

lemma checkFlags_err_iff (o : Option JsonValue) :
    isErr (checkFlags o) = true ↔ (o ≠ none ∧ ∀ s, o ≠ some (JsonValue.str s)) := by
  cases o with
  | none => simp [checkFlags, isErr]
  | some v =>
      cases v with
      | str s =>
          apply iff_of_false
          · simp [checkFlags, isErr]
          · intro h
            exact h.2 s rfl
      | num q => simp [checkFlags, isErr]
      | boolean b => simp [checkFlags, isErr]
      | null => simp [checkFlags, isErr]

lemma checkScanType_str_other (s : String) (h1 : s ≠ "quick") (h2 : s ≠ "full")
    (h3 : s ≠ "version") :
    checkScanType (some (JsonValue.str s)) = Except.error ⟨"scanType", "Invalid enum value"⟩ := by
  unfold checkScanType
  split <;> simp_all

lemma checkScanType_err_iff (o : Option JsonValue) :
    isErr (checkScanType o) = true ↔
      (o ≠ none ∧ o ≠ some (JsonValue.str "quick") ∧ o ≠ some (JsonValue.str "full") ∧
        o ≠ some (JsonValue.str "version")) := by
  cases o with
  | none => simp [checkScanType, isErr]
  | some v =>
      cases v with
      | str s =>
          by_cases h1 : s = "quick"
          · subst h1; simp [checkScanType, isErr]
          · by_cases h2 : s = "full"
            · subst h2; simp [checkScanType, isErr]
            · by_cases h3 : s = "version"
              · subst h3; simp [checkScanType, isErr]
              · rw [checkScanType_str_other s h1 h2 h3]
                simp [isErr, h1, h2, h3]
      | num q => simp [checkScanType, isErr]
      | boolean b => simp [checkScanType, isErr]
      | null => simp [checkScanType, isErr]

lemma checkTiming_err_iff (o : Option JsonValue) :
    isErr (checkTiming o) = true ↔
      (o ≠ none ∧ ∀ q, o = some (JsonValue.num q) → (q < 0 ∨ 5 < q)) := by
  cases o with
  | none => simp [checkTiming, isErr]
  | some v =>
      cases v with
      | str s => simp [checkTiming, isErr]
      | num q =>
          by_cases h1 : q < 0
          · simp [checkTiming, isErr, h1]
          · by_cases h2 : 5 < q
            · simp [checkTiming, isErr, h1, h2]
            · simp [checkTiming, isErr, h1, h2]
      | boolean b => simp [checkTiming, isErr]
      | null => simp [checkTiming, isErr]

lemma errList_fields {α : Type} (e : Except FieldIssue α) (nm : String)
    (h : ∀ i, e = Except.error i → i.field = nm) :
    (errList e).map FieldIssue.field = if isErr e = true then [nm] else [] := by
  cases e with
  | ok a => rfl
  | error i => simp [errList, isErr, h i rfl]

lemma checkTarget_err_field (o : Option JsonValue) (i : FieldIssue)
    (h : checkTarget o = Except.error i) : i.field = "target" := by
  unfold checkTarget at h
  split at h <;> simp_all <;> rw [← h]

lemma checkPorts_err_field (o : Option JsonValue) (i : FieldIssue)
    (h : checkPorts o = Except.error i) : i.field = "ports" := by
  unfold checkPorts at h
  split at h <;> simp_all <;> rw [← h]

lemma checkScanType_err_field (o : Option JsonValue) (i : FieldIssue)
    (h : checkScanType o = Except.error i) : i.field = "scanType" := by
  unfold checkScanType at h
  split at h <;> simp_all <;> rw [← h]

lemma checkTiming_err_field (o : Option JsonValue) (i : FieldIssue)
    (h : checkTiming o = Except.error i) : i.field = "timing" := by
  unfold checkTiming at h
  split at h <;> (try split at h) <;> (try split at h) <;> simp_all <;> rw [← h]

lemma checkFlags_err_field (o : Option JsonValue) (i : FieldIssue)
    (h : checkFlags o = Except.error i) : i.field = "additionalFlags" := by
  unfold checkFlags at h
  split at h <;> simp_all <;> rw [← h]

lemma fieldIssues_map (raw : RawPayload) :
    (fieldIssues raw).map FieldIssue.field =
      (if isErr (checkTarget raw.target) = true then ["target"] else []) ++
      (if isErr (checkPorts raw.ports) = true then ["ports"] else []) ++
      (if isErr (checkScanType raw.scanType) = true then ["scanType"] else []) ++
      (if isErr (checkTiming raw.timing) = true then ["timing"] else []) ++
      (if isErr (checkFlags raw.additionalFlags) = true then ["additionalFlags"] else []) := by
  unfold fieldIssues
  rw [List.map_append, List.map_append, List.map_append, List.map_append,
    errList_fields _ "target" (checkTarget_err_field raw.target),
    errList_fields _ "ports" (checkPorts_err_field raw.ports),
    errList_fields _ "scanType" (checkScanType_err_field raw.scanType),
    errList_fields _ "timing" (checkTiming_err_field raw.timing),
    errList_fields _ "additionalFlags" (checkFlags_err_field raw.additionalFlags)]

lemma mem_ite_singleton (a b : String) (c : Prop) [Decidable c] :
    (a ∈ if c then [b] else ([] : List String)) ↔ (c ∧ a = b) := by
  split <;> simp_all

/-! ## Helper lemmas about the request handler -/

lemma handleCallTool_invalid (exec : String → ExecOutcome) (args : RawPayload)
    (issues : List FieldIssue) (h : safeParse args = Except.error issues) :
    handleCallTool exec "run_nmap_scan" args =
      ⟨⟨"Error: Invalid arguments for run_nmap_scan: " ++ renderIssues issues, true⟩, [], []⟩ := by
  unfold handleCallTool
  rw [if_pos rfl, h]

lemma handleCallTool_exec_ok (exec : String → ExecOutcome) (args : RawPayload)
    (cfg : ScanConfig) (out err : String) (hp : safeParse args = Except.ok cfg)
    (hx : exec (buildCommand cfg) = ExecOutcome.ok out err) :
    handleCallTool exec "run_nmap_scan" args =
      ⟨⟨out, false⟩, [buildCommand cfg], if err = "" then [] else ["Nmap stderr: " ++ err]⟩ := by
  simp only [handleCallTool, runNmapScan, hp, hx]
  rfl

lemma handleCallTool_exec_err (exec : String → ExecOutcome) (args : RawPayload)
    (cfg : ScanConfig) (m : String) (hp : safeParse args = Except.ok cfg)
    (hx : exec (buildCommand cfg) = ExecOutcome.err m) :
    handleCallTool exec "run_nmap_scan" args =
      ⟨⟨"Error: Nmap scan failed: " ++ m, true⟩, [buildCommand cfg], []⟩ := by
  simp only [handleCallTool, runNmapScan, hp, hx]
  have h2 : ("Error: " : String) ++ ("Nmap scan failed: " ++ m) =
      "Error: Nmap scan failed: " ++ m := by
    rw [← String.append_assoc]
    have h1 : ("Error: " ++ "Nmap scan failed: " : String) = "Error: Nmap scan failed: " := by
      decide
    rw [h1]
  rw [← h2]
  rfl

/-! ## Claims about validation and the handler -/

/-- Claim C3 counterexample: the claim says validation accepts `timing` only
when it is an integer in [0, 5], but the schema is `z.number().min(0).max(5)`
with no integrality check: the non-integer 5/2 (2.5) is accepted and reaches
the configuration unchanged. -/
theorem timing_non_integer_accepted :
    safeParse ⟨some (JsonValue.str "host"), none, none, some (JsonValue.num (5 / 2)), none⟩ =
      Except.ok ⟨"host", none, ScanType.quick, 5 / 2, none⟩ ∧
    ((5 / 2 : ℚ)).den ≠ 1 := by
  constructor
  · refine safeParse_ok_of _ "host" none ScanType.quick (5 / 2) none rfl rfl rfl ?_ rfl
    simp [checkTiming, show ¬(5 / 2 : ℚ) < 0 by norm_num, show ¬(5 : ℚ) < 5 / 2 by norm_num]
  · norm_num

/-- Claim C3 (amended): validation accepts the `timing` field exactly when
it is a number in the closed range [0, 5] — integrality is not required —
defaulting to 3 when absent; any number outside the range, and any present
non-number value, is rejected at validation, the request yields an error
envelope and no process is ever launched; and for an accepted integer
timing value the compiled command carries the timing flag with that exact
integer.  The handler conjunct's hypothesis — the field is present, and
every number it could hold is out of range — covers both an out-of-range
number and a non-number value (where it holds vacuously). -/
theorem timing_range_validated (q : ℚ) (hq0 : 0 ≤ q) (hq5 : q ≤ 5) :
    checkTiming (some (JsonValue.num q)) = Except.ok q ∧
    checkTiming none = Except.ok 3 ∧
    (∀ q' : ℚ, q' < 0 ∨ 5 < q' → isErr (checkTiming (some (JsonValue.num q'))) = true) ∧
    (∀ v, (∀ q' : ℚ, v ≠ JsonValue.num q') → isErr (checkTiming (some v)) = true) ∧
    (∀ exec raw, raw.timing ≠ none →
      (∀ q' : ℚ, raw.timing = some (JsonValue.num q') → q' < 0 ∨ 5 < q') →
      (handleCallTool exec "run_nmap_scan" raw).result.isError = true ∧
      (handleCallTool exec "run_nmap_scan" raw).launched = []) ∧
    (∀ cfg : ScanConfig, ∀ n : ℕ, cfg.timing = (n : ℚ) →
      ∃ rest, buildCommand cfg = "nmap -T" ++ (toString n ++ rest)) := by
  have hrej : ∀ q' : ℚ, q' < 0 ∨ 5 < q' →
      isErr (checkTiming (some (JsonValue.num q'))) = true := by
    intro q' h
    refine (checkTiming_err_iff (some (JsonValue.num q'))).mpr ⟨by simp, ?_⟩
    intro q2 hq2
    simp only [Option.some.injEq, JsonValue.num.injEq] at hq2
    subst hq2
    exact h
  refine ⟨?_, rfl, hrej, ?_, ?_, ?_⟩
  · simp [checkTiming, not_lt.mpr hq0, not_lt.mpr hq5]
  · intro v hv
    refine (checkTiming_err_iff (some v)).mpr ⟨by simp, ?_⟩
    intro q' hq'
    exact absurd (Option.some.inj hq') (hv q')
  · intro exec raw hne himp
    have ht : isErr (checkTiming raw.timing) = true :=
      (checkTiming_err_iff raw.timing).mpr ⟨hne, himp⟩
    have hsp := safeParse_error_of raw (Or.inr (Or.inr (Or.inr (Or.inl ht))))
    rw [handleCallTool_invalid exec raw _ hsp]
    exact ⟨rfl, rfl⟩
  · intro cfg n h
    refine ⟨scanFlagOf cfg.scanType ++ (portSegOf cfg.ports ++
      (extraSegOf cfg.additionalFlags ++ (" " ++ cfg.target))), ?_⟩
    rw [buildCommand_flat, h, jsNumToString_natCast]
    simp [String.append_assoc]

/-- Witness for the amended timing claim at concrete inputs: timing 2 is
accepted; a request with the out-of-range timing 7 and a request with the
non-number timing "fast" are both rejected with nothing launched. -/
theorem timing_range_validated_witness :
    checkTiming (some (JsonValue.num 2)) = Except.ok 2 ∧
    (handleCallTool (fun _ => ExecOutcome.ok "" "") "run_nmap_scan"
      ⟨some (JsonValue.str "host"), none, none, some (JsonValue.num 7), none⟩).launched = [] ∧
    (handleCallTool (fun _ => ExecOutcome.ok "" "") "run_nmap_scan"
      ⟨some (JsonValue.str "host"), none, none, some (JsonValue.str "fast"), none⟩).launched =
      [] := by
  have h := timing_range_validated 2 (by norm_num) (by norm_num)
  refine ⟨h.1, ?_, ?_⟩
  · refine (h.2.2.2.2.1 (fun _ => ExecOutcome.ok "" "")
      ⟨some (JsonValue.str "host"), none, none, some (JsonValue.num 7), none⟩ (by simp) ?_).2
    intro q' hq'
    simp only [Option.some.injEq, JsonValue.num.injEq] at hq'
    subst hq'
    right
    norm_num
  · refine (h.2.2.2.2.1 (fun _ => ExecOutcome.ok "" "")
      ⟨some (JsonValue.str "host"), none, none, some (JsonValue.str "fast"), none⟩
      (by simp) ?_).2
    intro q' hq'
    simp at hq'

/-- Claim C4 counterexample: the claim says a payload whose `target` is the
empty string is rejected, but the schema is `z.string()` with no
non-emptiness check: the empty target validates successfully. -/
theorem empty_target_accepted :
    safeParse ⟨some (JsonValue.str ""), none, none, none, none⟩ =
      Except.ok ⟨"", none, ScanType.quick, 3, none⟩ := by
  rfl

/-- Claim C4 (amended): validation requires `target` to be present and a
string — a payload whose target is absent or not a string is rejected and
never reaches command compilation — but the empty string is accepted, since
`z.string()` imposes no non-emptiness constraint. -/
theorem target_required_string (s : String) :
    checkTarget (some (JsonValue.str s)) = Except.ok s ∧
    isErr (checkTarget none) = true ∧
    (∀ v, (∀ s', v ≠ JsonValue.str s') → isErr (checkTarget (some v)) = true) ∧
    (∀ exec raw, (∀ s', raw.target ≠ some (JsonValue.str s')) →
      (handleCallTool exec "run_nmap_scan" raw).result.isError = true ∧
      (handleCallTool exec "run_nmap_scan" raw).launched = []) := by
  refine ⟨rfl, rfl, ?_, ?_⟩
  · intro v hv
    exact (checkTarget_err_iff (some v)).mpr fun s' hs' => hv s' (Option.some.inj hs')
  · intro exec raw h
    have ht : isErr (checkTarget raw.target) = true := (checkTarget_err_iff raw.target).mpr h
    have hsp := safeParse_error_of raw (Or.inl ht)
    rw [handleCallTool_invalid exec raw _ hsp]
    exact ⟨rfl, rfl⟩

/-- Witness for the amended target claim at concrete inputs: a string target
validates; a request with a numeric target is rejected with nothing
launched. -/
theorem target_required_string_witness :
    checkTarget (some (JsonValue.str "example.com")) = Except.ok "example.com" ∧
    (handleCallTool (fun _ => ExecOutcome.ok "" "") "run_nmap_scan"
      ⟨some (JsonValue.num 1), none, none, none, none⟩).launched = [] := by
  refine ⟨(target_required_string "example.com").1, ?_⟩
  exact ((target_required_string "example.com").2.2.2 (fun _ => ExecOutcome.ok "" "")
    ⟨some (JsonValue.num 1), none, none, none, none⟩ (fun s' => by simp)).2

/-- Claim C5: whenever the argument payload fails validation, the handler
returns an error envelope built from the validation issues, and the launch
trace is empty — no child process is ever started for that request,
whatever the process layer would do. -/
theorem invalid_payload_error_no_launch (exec : String → ExecOutcome) (args : RawPayload)
    (issues : List FieldIssue) (h : safeParse args = Except.error issues) :
    handleCallTool exec "run_nmap_scan" args =
      ⟨⟨"Error: Invalid arguments for run_nmap_scan: " ++ renderIssues issues, true⟩, [], []⟩ :=
  handleCallTool_invalid exec args issues h

/-- Witness for the invalid-payload claim: the spec's scenario
`{scanType: "bogus"}` yields an error envelope and an empty launch trace. -/
theorem invalid_payload_error_no_launch_witness :
    handleCallTool (fun _ => ExecOutcome.ok "" "") "run_nmap_scan"
        ⟨none, none, some (JsonValue.str "bogus"), none, none⟩ =
      ⟨⟨"Error: Invalid arguments for run_nmap_scan: " ++
          renderIssues [⟨"target", "Required"⟩, ⟨"scanType", "Invalid enum value"⟩],
        true⟩, [], []⟩ :=
  invalid_payload_error_no_launch (fun _ => ExecOutcome.ok "" "")
    ⟨none, none, some (JsonValue.str "bogus"), none, none⟩
    [⟨"target", "Required"⟩, ⟨"scanType", "Invalid enum value"⟩] (by rfl)

/-- Claim C6: a validation failure enumerates every failing field — a field
name appears in the reported issue list exactly when that field violates its
constraint — and no failing payload is ever silently corrected into a
successful parse. -/
theorem validation_enumerates_every_failure (raw : RawPayload) (issues : List FieldIssue)
    (h : safeParse raw = Except.error issues) :
    (∀ cfg, safeParse raw ≠ Except.ok cfg) ∧
    (("target" ∈ issues.map FieldIssue.field) ↔ ∀ s, raw.target ≠ some (JsonValue.str s)) ∧
    (("ports" ∈ issues.map FieldIssue.field) ↔
      (raw.ports ≠ none ∧ ∀ s, raw.ports ≠ some (JsonValue.str s))) ∧
    (("scanType" ∈ issues.map FieldIssue.field) ↔
      (raw.scanType ≠ none ∧ raw.scanType ≠ some (JsonValue.str "quick") ∧
        raw.scanType ≠ some (JsonValue.str "full") ∧
        raw.scanType ≠ some (JsonValue.str "version"))) ∧
    (("timing" ∈ issues.map FieldIssue.field) ↔
      (raw.timing ≠ none ∧ ∀ q, raw.timing = some (JsonValue.num q) → (q < 0 ∨ 5 < q))) ∧
    (("additionalFlags" ∈ issues.map FieldIssue.field) ↔
      (raw.additionalFlags ≠ none ∧ ∀ s, raw.additionalFlags ≠ some (JsonValue.str s))) := by
  obtain rfl : issues = fieldIssues raw := safeParse_error_eq raw issues h
  refine ⟨fun cfg hc => by rw [h] at hc; exact Except.noConfusion hc, ?_, ?_, ?_, ?_, ?_⟩ <;>
    · rw [fieldIssues_map]
      simp only [List.mem_append, mem_ite_singleton]
      simp [checkTarget_err_iff, checkPorts_err_iff, checkScanType_err_iff,
        checkTiming_err_iff, checkFlags_err_iff]

/-- Witness for the enumeration claim: a payload failing on `target`,
`scanType` and `timing` at once reports all three fields. -/
theorem validation_enumerates_every_failure_witness :
    ("target" ∈ (fieldIssues ⟨none, none, some (JsonValue.str "bogus"),
        some (JsonValue.num 9), none⟩).map FieldIssue.field) ∧
    ("scanType" ∈ (fieldIssues ⟨none, none, some (JsonValue.str "bogus"),
        some (JsonValue.num 9), none⟩).map FieldIssue.field) ∧
    ("timing" ∈ (fieldIssues ⟨none, none, some (JsonValue.str "bogus"),
        some (JsonValue.num 9), none⟩).map FieldIssue.field) := by
  have h := validation_enumerates_every_failure
    ⟨none, none, some (JsonValue.str "bogus"), some (JsonValue.num 9), none⟩
    (fieldIssues ⟨none, none, some (JsonValue.str "bogus"), some (JsonValue.num 9), none⟩)
    (by rfl)
  refine ⟨h.2.1.mpr fun s => by simp, ?_, ?_⟩
  · exact h.2.2.2.1.mpr ⟨by simp, by simp, by simp, by simp⟩
  · refine h.2.2.2.2.1.mpr ⟨by simp, ?_⟩
    intro q hq
    simp only [Option.some.injEq, JsonValue.num.injEq] at hq
    subst hq
    right
    norm_num

/-- Claim C7: when the awaited invocation reports failure with message `m`,
the handler returns an error envelope whose text is exactly the scan-step
prefix followed by the underlying message, with no scan output in the
payload; the single compiled command is the only launch. -/
theorem exec_failure_error_result (exec : String → ExecOutcome) (args : RawPayload)
    (cfg : ScanConfig) (m : String) (hp : safeParse args = Except.ok cfg)
    (hx : exec (buildCommand cfg) = ExecOutcome.err m) :
    handleCallTool exec "run_nmap_scan" args =
      ⟨⟨"Error: Nmap scan failed: " ++ m, true⟩, [buildCommand cfg], []⟩ :=
  handleCallTool_exec_err exec args cfg m hp hx

/-- Witness for the invocation-failure claim: a spawn failure message is
embedded behind the scan-step prefix and flagged as an error. -/
theorem exec_failure_error_result_witness :
    handleCallTool (fun _ => ExecOutcome.err "spawn nmap ENOENT") "run_nmap_scan"
        ⟨some (JsonValue.str "example.com"), none, none, none, none⟩ =
      ⟨⟨"Error: Nmap scan failed: spawn nmap ENOENT", true⟩,
        ["nmap -T3 -F example.com"], []⟩ := by
  have h := exec_failure_error_result (fun _ => ExecOutcome.err "spawn nmap ENOENT")
    ⟨some (JsonValue.str "example.com"), none, none, none, none⟩
    ⟨"example.com", none, ScanType.quick, 3, none⟩ "spawn nmap ENOENT" (by rfl) (by rfl)
  rw [h]
  rfl

/-- Claim C8: when the awaited invocation resolves with stdout and stderr
texts, the handler returns a success envelope whose payload is exactly the
stdout text; the stderr text reaches only the diagnostic channel, never the
payload. -/
theorem stdout_is_result_payload (exec : String → ExecOutcome) (args : RawPayload)
    (cfg : ScanConfig) (out err : String) (hp : safeParse args = Except.ok cfg)
    (hx : exec (buildCommand cfg) = ExecOutcome.ok out err) :
    handleCallTool exec "run_nmap_scan" args =
      ⟨⟨out, false⟩, [buildCommand cfg], if err = "" then [] else ["Nmap stderr: " ++ err]⟩ :=
  handleCallTool_exec_ok exec args cfg out err hp hx

/-- Witness for the stdout claim: with text on both streams the payload is
exactly the stdout text and the stderr text goes to diagnostics. -/
theorem stdout_is_result_payload_witness :
    handleCallTool (fun _ => ExecOutcome.ok "scan output" "a warning") "run_nmap_scan"
        ⟨some (JsonValue.str "example.com"), none, none, none, none⟩ =
      ⟨⟨"scan output", false⟩, ["nmap -T3 -F example.com"],
        ["Nmap stderr: a warning"]⟩ := by
  have h := stdout_is_result_payload (fun _ => ExecOutcome.ok "scan output" "a warning")
    ⟨some (JsonValue.str "example.com"), none, none, none, none⟩
    ⟨"example.com", none, ScanType.quick, 3, none⟩ "scan output" "a warning" (by rfl) (by rfl)
  rw [h]
  rfl

/-- Claim C10: under the modelled child-process facility, a process that
starts and exits with a non-zero status is reported as a failed invocation,
so the handler returns an error envelope with the scan-step prefix embedding
the facility's failure message — never a success envelope carrying the
captured stdout. -/
theorem nonzero_exit_error_result (proc : String → ProcessOutcome) (args : RawPayload)
    (cfg : ScanConfig) (code : Int) (out err : String) (hp : safeParse args = Except.ok cfg)
    (hx : proc (buildCommand cfg) = ProcessOutcome.exited code out err) (hc : code ≠ 0) :
    handleCallTool (execAsyncModel proc) "run_nmap_scan" args =
      ⟨⟨"Error: Nmap scan failed: Command failed: " ++ (buildCommand cfg ++ ("\n" ++ err)),
        true⟩, [buildCommand cfg], []⟩ := by
  have hx2 : execAsyncModel proc (buildCommand cfg) =
      ExecOutcome.err ("Command failed: " ++ buildCommand cfg ++ "\n" ++ err) := by
    unfold execAsyncModel
    rw [hx]
    simp [hc]
  rw [handleCallTool_exec_err (execAsyncModel proc) args cfg _ hp hx2]
  have h1 : ("Error: Nmap scan failed: " ++ "Command failed: " : String) =
      "Error: Nmap scan failed: Command failed: " := by decide
  have hm : ("Error: Nmap scan failed: " : String) ++
      ("Command failed: " ++ buildCommand cfg ++ "\n" ++ err) =
      "Error: Nmap scan failed: Command failed: " ++ (buildCommand cfg ++ ("\n" ++ err)) := by
    simp only [← String.append_assoc]
    rw [h1]
  rw [hm]

/-- Witness for the non-zero-exit claim: exit status 1 with captured output
and stderr yields the prefixed error envelope, not a success envelope. -/
theorem nonzero_exit_error_result_witness :
    handleCallTool (execAsyncModel fun _ => ProcessOutcome.exited 1 "partial" "boom")
        "run_nmap_scan" ⟨some (JsonValue.str "h"), none, none, none, none⟩ =
      ⟨⟨"Error: Nmap scan failed: Command failed: nmap -T3 -F h\nboom", true⟩,
        ["nmap -T3 -F h"], []⟩ := by
  have h := nonzero_exit_error_result (fun _ => ProcessOutcome.exited 1 "partial" "boom")
    ⟨some (JsonValue.str "h"), none, none, none, none⟩
    ⟨"h", none, ScanType.quick, 3, none⟩ 1 "partial" "boom" (by rfl) (by rfl) (by norm_num)
  rw [h]
  rfl

end NmapServer
